import Mathlib

/-!
Verification development for the AMY-Technology email-inference service.

The repository is a Go HTTP front-end that forwards email text to a
chat-completion API.  The core under verification is the outbound client
(`DeepseekClient` in the main package, with a near-duplicate `OpenAIClient`
in `openai/openai_client.go`): request construction, the retry/backoff loop
`makeRequest`, response decoding for the summarize / classify / draft task
methods, the markdown-fence stripping on the classify path, and the batch
classification orchestrator `ClassifyEmailsBatch`.

Modelling conventions:
* Go strings (byte slices holding text) are modelled as `List Char`
  (`GoStr`); the `strings` package functions used by the source
  (`TrimSpace`, `HasPrefix`, `TrimPrefix`, `TrimSuffix`) are re-implemented
  below on `GoStr` with `go`-prefixed names.
* The upstream HTTP endpoint is modelled as an oracle
  `Nat → HttpOutcome` giving, for each outbound attempt index, either a
  network-level transport failure (`http.Client.Do` returning an error) or
  a response with a status code and a raw body.  The client never varies
  its request across retries (the body is buffered once), so the attempt
  index is the only input the environment can react to.
* `encoding/json` is modelled by a small executable JSON parser
  (`jparseVal`) plus struct decoders that mirror Go unmarshalling on the
  shapes the client uses: objects decode into structs field-by-field,
  unknown fields are ignored, absent or `null` fields leave the zero
  value, `json.Unmarshal` rejects trailing data while `Decoder.Decode`
  (used for the chat response) only reads the first value.  JSON numbers
  are modelled as exact rationals (the client performs no arithmetic on
  scores, so this abstraction is observation-equivalent); the number
  grammar covers the integer/fraction forms exercised here (no exponent,
  no `\u` string escapes), which is the fragment the theorems evaluate.
* Sleeping is modelled by recording the slept durations (in seconds) in
  the order they happen; wall-clock time itself is not modelled.
-/

abbrev GoStr := List Char

/-- Whitespace predicate used by `strings.TrimSpace` (ASCII fragment of
`unicode.IsSpace`). -/
def goIsSpace (c : Char) : Bool :=
  c == ' ' || c == '\t' || c == '\n' || c == '\r' || c == '\x0b' || c == '\x0c'

/-- Left part of `strings.TrimSpace`. -/
def goTrimLeft (s : GoStr) : GoStr := s.dropWhile goIsSpace

/-- Right part of `strings.TrimSpace`, written recursively so that proofs
can follow the structure of the list. -/
def goTrimRight : GoStr → GoStr
  | [] => []
  | c :: t =>
    match goTrimRight t with
    | [] => if goIsSpace c then [] else [c]
    | x :: r => c :: x :: r

/-- Model of `strings.TrimSpace`. -/
def goTrimSpace (s : GoStr) : GoStr := goTrimLeft (goTrimRight s)

/-- Model of `strings.HasPrefix s p`. -/
def goStartsWith (s p : GoStr) : Bool := p.isPrefixOf s

/-- Model of `strings.HasSuffix s p`. -/
def goEndsWith (s p : GoStr) : Bool := p.isSuffixOf s

/-- Model of `strings.TrimPrefix s p` (drop `p` from the front when present). -/
def goTrimLead (s p : GoStr) : GoStr :=
  if goStartsWith s p then s.drop p.length else s

/-- Model of `strings.TrimSuffix s p` (drop `p` from the back when present). -/
def goTrimTrail (s p : GoStr) : GoStr :=
  if goEndsWith s p then s.take (s.length - p.length) else s

/-! ## JSON model (`encoding/json` fragment) -/

/-- JSON values.  Numbers are exact rationals (see the header comment). -/
inductive Jval where
  | null
  | bool (b : Bool)
  | num (q : ℚ)
  | str (s : GoStr)
  | arr (elems : List Jval)
  | obj (fields : List (GoStr × Jval))

/-- Whitespace skipped between JSON tokens. -/
def jIsWs (c : Char) : Bool := c == ' ' || c == '\t' || c == '\n' || c == '\r'

def jskipWs (s : GoStr) : GoStr := s.dropWhile jIsWs

/-- The JSON two-character escapes the model handles (no `\u`), as an
escape-code / decoded-character table. -/
def jescPairs : List (Char × Char) :=
  [('n', '\n'), ('t', '\t'), ('r', '\r'), ('"', '"'),
   ('\\', '\\'), ('/', '/'), ('b', '\x08'), ('f', '\x0c')]

def jescChar (c : Char) : Option Char :=
  (jescPairs.find? (fun p => p.1 == c)).map (fun p => p.2)

/-- Parse the body of a JSON string after the opening quote; returns the
decoded characters and the remainder after the closing quote. -/
def jparseStringBody : GoStr → Option (GoStr × GoStr)
  | [] => none
  | '"' :: rest => some ([], rest)
  | '\\' :: e :: rest =>
    match jescChar e with
    | some ce => (jparseStringBody rest).map (fun p => (ce :: p.1, p.2))
    | none => none
  | '\\' :: [] => none
  | c :: rest => (jparseStringBody rest).map (fun p => (c :: p.1, p.2))

def jdigitsToNat (ds : GoStr) : Nat :=
  ds.foldl (fun a c => a * 10 + (c.toNat - 48)) 0

/-- Sign application for a parsed decimal literal. -/
def jsign (neg : Bool) (n : Nat) : Int :=
  if neg then -(n : Int) else (n : Int)

/-- Parse a JSON number (optional minus, integer part, optional fraction)
into the exact rational value of the decimal literal.  The rational is
built with `Rat.divInt` so that concrete parses reduce inside the kernel. -/
def jparseNum (s : GoStr) : Option (ℚ × GoStr) :=
  let neg := goStartsWith s "-".data
  let s1 := s.drop (if neg then 1 else 0)
  let ds := s1.takeWhile Char.isDigit
  let s2 := s1.dropWhile Char.isDigit
  if ds.isEmpty then none
  else
    match s2 with
    | '.' :: s3 =>
      let fs := s3.takeWhile Char.isDigit
      let s4 := s3.dropWhile Char.isDigit
      if fs.isEmpty then none
      else
        some (Rat.divInt
          (jsign neg (jdigitsToNat ds * 10 ^ fs.length + jdigitsToNat fs))
          ((10 : Int) ^ fs.length), s4)
    | _ => some (Rat.divInt (jsign neg (jdigitsToNat ds)) 1, s2)

mutual

/-- Fuelled recursive-descent parser for a JSON value. -/
def jparseVal : Nat → GoStr → Option (Jval × GoStr)
  | 0, _ => none
  | fuel + 1, s =>
    let s1 := jskipWs s
    if goStartsWith s1 "null".data then some (.null, s1.drop 4)
    else if goStartsWith s1 "true".data then some (.bool true, s1.drop 4)
    else if goStartsWith s1 "false".data then some (.bool false, s1.drop 5)
    else
      match s1 with
      | '"' :: rest => (jparseStringBody rest).map (fun p => (.str p.1, p.2))
      | '[' :: rest =>
        (match jskipWs rest with
         | ']' :: rest2 => some (.arr [], rest2)
         | rest2 =>
           (jparseArrItems fuel rest2).map (fun p => (.arr p.1, p.2)))
      | '\x7b' :: rest =>
        (match jskipWs rest with
         | '\x7d' :: rest2 => some (.obj [], rest2)
         | rest2 =>
           (jparseObjItems fuel rest2).map (fun p => (.obj p.1, p.2)))
      | s2 => (jparseNum s2).map (fun p => (.num p.1, p.2))

/-- One or more comma-separated array items, then `]`. -/
def jparseArrItems : Nat → GoStr → Option (List Jval × GoStr)
  | 0, _ => none
  | fuel + 1, s =>
    match jparseVal fuel s with
    | none => none
    | some (v, rest) =>
      match jskipWs rest with
      | ',' :: rest2 =>
        (jparseArrItems fuel rest2).map (fun p => (v :: p.1, p.2))
      | ']' :: rest2 => some ([v], rest2)
      | _ => none

/-- One or more comma-separated `"key": value` pairs, then the closing
brace. -/
def jparseObjItems : Nat → GoStr → Option (List (GoStr × Jval) × GoStr)
  | 0, _ => none
  | fuel + 1, s =>
    match jskipWs s with
    | '"' :: rest =>
      (match jparseStringBody rest with
       | none => none
       | some (key, rest2) =>
         match jskipWs rest2 with
         | ':' :: rest3 =>
           (match jparseVal fuel rest3 with
            | none => none
            | some (v, rest4) =>
              match jskipWs rest4 with
              | ',' :: rest5 =>
                (jparseObjItems fuel rest5).map (fun p => ((key, v) :: p.1, p.2))
              | '\x7d' :: rest5 => some ([(key, v)], rest5)
              | _ => none)
         | _ => none)
    | _ => none

end

/-- Model of `json.Unmarshal`'s top-level parse: one value, nothing but
whitespace after it. -/
def jparseStrict (s : GoStr) : Option Jval :=
  match jparseVal (s.length + 1) s with
  | some (v, rest) => if (jskipWs rest).isEmpty then some v else none
  | none => none

/-- Model of `json.Decoder.Decode`'s top-level parse: only the first value
is read, trailing data is allowed. -/
def jparseFirst (s : GoStr) : Option Jval :=
  (jparseVal (s.length + 1) s).map (fun p => p.1)

/-! ## Wire and result types (from the Go struct declarations) -/

/-- `chatMessage` — `{role, content}`. -/
structure ChatMessage where
  role : GoStr
  content : GoStr
deriving DecidableEq, Repr

/-- `chatRequest` — `{model, messages, stream}`. -/
structure ChatRequest where
  model : GoStr
  messages : List ChatMessage
  stream : Bool
deriving DecidableEq, Repr

/-- `chatChoice` — `{index, finish_reason, message}`. -/
structure ChatChoice where
  index : Int
  finishReason : GoStr
  message : ChatMessage
deriving DecidableEq, Repr

/-- `chatResponse` — `{choices}`. -/
structure ChatResponse where
  choices : List ChatChoice
deriving DecidableEq, Repr

/-- `ClassificationLabel` — `{label, score}`. -/
structure ClassificationLabel where
  label : GoStr
  score : ℚ
deriving DecidableEq, Repr

/-- `ClassifyResponse` — `{labels}`. -/
structure ClassifyResponse where
  labels : List ClassificationLabel
deriving DecidableEq, Repr

/-- `SummaryResponse` — `{summary}`. -/
structure SummaryResponse where
  summary : GoStr
deriving DecidableEq, Repr

/-- `DraftResponse` — `{draft}`. -/
structure DraftResponse where
  draft : GoStr
deriving DecidableEq, Repr

/-- `APIError` — `{message, code}`. -/
structure APIError where
  message : GoStr
  code : Int
deriving DecidableEq, Repr

/-- `EmailRequest` — `{id, content}`. -/
structure EmailRequest where
  id : GoStr
  content : GoStr
deriving DecidableEq, Repr

/-- `BatchClassificationResult` — `{id, labels}` (client side). -/
structure BatchClassificationResult where
  id : GoStr
  labels : List ClassificationLabel
deriving DecidableEq, Repr

/-- `ClassificationResult` — `{id, labels}` (handler side, main.go). -/
structure ClassificationResult where
  id : GoStr
  labels : List ClassificationLabel
deriving DecidableEq, Repr

/-- `BatchClassifyResponse` — `{results}`. -/
structure BatchClassifyResponse where
  results : List ClassificationResult
deriving DecidableEq, Repr

/-! ## Struct decoders (Go unmarshalling of the shapes above) -/

/-- Look a key up in a decoded JSON object; Go keeps the last duplicate. -/
def jfield (name : GoStr) (fields : List (GoStr × Jval)) : Option Jval :=
  ((fields.filter (fun p => p.1 == name)).getLast?).map (fun p => p.2)

/-- Decode a string-typed struct field: absent or `null` leaves the zero
value `""`; a non-string value is an unmarshalling error. -/
def jdecStrField (name : GoStr) (fields : List (GoStr × Jval)) : Option GoStr :=
  match jfield name fields with
  | none => some []
  | some .null => some []
  | some (.str s) => some s
  | some _ => none

/-- Decode an int-typed struct field (absent/`null` gives `0`; fractional
numbers are rejected as Go does). -/
def jdecIntField (name : GoStr) (fields : List (GoStr × Jval)) : Option Int :=
  match jfield name fields with
  | none => some 0
  | some .null => some 0
  | some (.num q) => if q.den = 1 then some q.num else none
  | some _ => none

/-- Decode a float64-typed struct field (absent/`null` gives `0`). -/
def jdecNumField (name : GoStr) (fields : List (GoStr × Jval)) : Option ℚ :=
  match jfield name fields with
  | none => some 0
  | some .null => some 0
  | some (.num q) => some q
  | some _ => none

/-- Decode a JSON value into `APIError` the way `json.Unmarshal` does for
a struct target: object (field-by-field) or `null` (no-op); anything else
fails. -/
def jdecAPIError : Jval → Option APIError
  | .obj fields => do
    let m ← jdecStrField "message".data fields
    let c ← jdecIntField "code".data fields
    pure ⟨m, c⟩
  | .null => some ⟨[], 0⟩
  | _ => none

def jdecChatMessage : Jval → Option ChatMessage
  | .obj fields => do
    let r ← jdecStrField "role".data fields
    let c ← jdecStrField "content".data fields
    pure ⟨r, c⟩
  | .null => some ⟨[], []⟩
  | _ => none

def jdecChatChoice : Jval → Option ChatChoice
  | .obj fields => do
    let i ← jdecIntField "index".data fields
    let f ← jdecStrField "finish_reason".data fields
    let m ← match jfield "message".data fields with
            | none => some (⟨[], []⟩ : ChatMessage)
            | some v => jdecChatMessage v
    pure ⟨i, f, m⟩
  | .null => some ⟨0, [], ⟨[], []⟩⟩
  | _ => none

/-- Decode a slice-typed field: absent or `null` gives the nil slice. -/
def jdecListField (α : Type) (dec : Jval → Option α) (name : GoStr)
    (fields : List (GoStr × Jval)) : Option (List α) :=
  match jfield name fields with
  | none => some []
  | some .null => some []
  | some (.arr elems) => elems.mapM dec
  | some _ => none

def jdecChatResponse : Jval → Option ChatResponse
  | .obj fields => do
    let cs ← jdecListField ChatChoice jdecChatChoice "choices".data fields
    pure ⟨cs⟩
  | .null => some ⟨[]⟩
  | _ => none

def jdecLabel : Jval → Option ClassificationLabel
  | .obj fields => do
    let l ← jdecStrField "label".data fields
    let s ← jdecNumField "score".data fields
    pure ⟨l, s⟩
  | .null => some ⟨[], 0⟩
  | _ => none

def jdecClassifyResponse : Jval → Option ClassifyResponse
  | .obj fields => do
    let ls ← jdecListField ClassificationLabel jdecLabel "labels".data fields
    pure ⟨ls⟩
  | .null => some ⟨[]⟩
  | _ => none

/-- `json.Unmarshal(body, &apiErr)` — strict top-level parse. -/
def unmarshalAPIError (s : GoStr) : Option APIError :=
  (jparseStrict s).bind jdecAPIError

/-- `json.NewDecoder(resp.Body).Decode(&cr)` — reads only the first value. -/
def decodeChatResponse (s : GoStr) : Option ChatResponse :=
  (jparseFirst s).bind jdecChatResponse

/-- `json.Unmarshal([]byte(responseContent), &out)` on the classify path. -/
def unmarshalClassify (s : GoStr) : Option ClassifyResponse :=
  (jparseStrict s).bind jdecClassifyResponse

/-! ## Upstream HTTP model and the Deepseek retry loop (`makeRequest`) -/

/-- Outcome of one outbound attempt: `http.Client.Do` either fails at the
transport level or yields a response with a status code and a body. -/
inductive HttpOutcome where
  | transportFail
  | response (status : Nat) (body : GoStr)
deriving DecidableEq, Repr

/-- Result of `makeRequest` as seen by the caller: a response (`ok`) with
a nil error, or a non-nil error (`err`, the `failed after %d retries`
return). -/
inductive MRResult where
  | ok (status : Nat) (body : GoStr)
  | err
deriving DecidableEq, Repr

/-- One run of the retry loop: the returned value, the number of outbound
HTTP attempts performed, and the backoff sleeps (in seconds) in the order
they happened. -/
structure MRRun where
  result : MRResult
  attempts : Nat
  backoffs : List Nat
deriving DecidableEq, Repr

/-- The body of `DeepseekClient.makeRequest`'s `for attempt := 0; attempt
<= maxRetries; attempt++` loop.  `fuel` is the number of loop iterations
still allowed (`maxRetries + 1 - attempt`); when it reaches zero the loop
has fallen through and the function returns the `failed after %d retries`
error wrapping `lastErr`.  Before every attempt with `attempt > 0` the
code sleeps `1 << (attempt-1)` seconds; a 5xx response is retried only
while `attempt < maxRetries`, any other response is returned with a nil
error. -/
def mrLoop (oracle : Nat → HttpOutcome) (maxRetries : Nat) :
    Nat → Nat → MRRun
  | _, 0 => ⟨.err, 0, []⟩
  | attempt, fuel + 1 =>
    let backoff : List Nat := if attempt = 0 then [] else [2 ^ (attempt - 1)]
    match oracle attempt with
    | .transportFail =>
      let rest := mrLoop oracle maxRetries (attempt + 1) fuel
      ⟨rest.result, rest.attempts + 1, backoff ++ rest.backoffs⟩
    | .response status body =>
      if 500 ≤ status ∧ status < 600 ∧ attempt < maxRetries then
        let rest := mrLoop oracle maxRetries (attempt + 1) fuel
        ⟨rest.result, rest.attempts + 1, backoff ++ rest.backoffs⟩
      else
        ⟨.ok status body, 1, backoff⟩

/-- `DeepseekClient.makeRequest` (the request itself is fixed across
retries: the body is buffered once and replayed, so only the attempt
index reaches the oracle). -/
def makeRequest (oracle : Nat → HttpOutcome) (maxRetries : Nat) : MRRun :=
  mrLoop oracle maxRetries 0 (maxRetries + 1)

/-- `OpenAIClient.makeRequest`: a single `HTTPClient.Do`, no retry, no
sleep; a transport failure is returned as the error of `Do` itself. -/
def oaMakeRequest (oracle : Nat → HttpOutcome) : MRRun :=
  match oracle 0 with
  | .transportFail => ⟨.err, 1, []⟩
  | .response status body => ⟨.ok status body, 1, []⟩

/-- The outcomes after which the Deepseek loop is willing to try again:
a transport failure or a server-side 5xx status. -/
def retriable : HttpOutcome → Prop
  | .transportFail => True
  | .response s _ => 500 ≤ s ∧ s < 600

instance : DecidablePred retriable := fun o =>
  match o with
  | .transportFail => .isTrue trivial
  | .response s _ => inferInstanceAs (Decidable (500 ≤ s ∧ s < 600))

/-! ## Task-method request construction (both clients) -/

def dsSysSummarize : GoStr :=
  "You are an assistant that summarizes emails. Return a concise summary in plain text.".data

def dsUserSummarize (content : GoStr) : GoStr :=
  "Summarize this email (HTML allowed):\n\n".data ++ content

def dsSysClassify : GoStr :=
  "Classify the email into labels. Output strict JSON: \x7b\"labels\":[\x7b\"label\":string,\"score\":number\x7d]\x7d with no extra text.".data

def dsUserClassify (content : GoStr) : GoStr :=
  "Classify this email (HTML allowed):\n\n".data ++ content

def dsSysDraft : GoStr :=
  "Write a polite, concise reply to the user's email. Output only the reply text.".data

def dsUserDraft (content : GoStr) : GoStr :=
  "Write a reply to this email (HTML allowed):\n\n".data ++ content

/-- `reqBody` built by `DeepseekClient.SummarizeEmail`. -/
def dsSummarizeRequest (model content : GoStr) : ChatRequest :=
  ⟨model, [⟨"system".data, dsSysSummarize⟩, ⟨"user".data, dsUserSummarize content⟩], false⟩

/-- `reqBody` built by `DeepseekClient.ClassifyEmail`. -/
def dsClassifyRequest (model content : GoStr) : ChatRequest :=
  ⟨model, [⟨"system".data, dsSysClassify⟩, ⟨"user".data, dsUserClassify content⟩], false⟩

/-- `reqBody` built by `DeepseekClient.DraftReply`. -/
def dsDraftRequest (model content : GoStr) : ChatRequest :=
  ⟨model, [⟨"system".data, dsSysDraft⟩, ⟨"user".data, dsUserDraft content⟩], false⟩

def oaSysSummarize : GoStr :=
  "You are an assistant that summarizes emails. Return a concise summary in plain text.".data

def oaUserSummarize (content : GoStr) : GoStr :=
  "Summarize this email (HTML allowed):\n\n".data ++ content

def oaSysClassify : GoStr :=
  "Classify the email into labels. Output strict JSON: \x7b\"labels\":[\x7b\"label\":string,\"score\":number\x7d]\x7d with no extra text.".data

def oaUserClassify (content : GoStr) : GoStr :=
  "Classify this email (HTML allowed):\n\n".data ++ content

def oaSysDraft : GoStr :=
  "Write a polite, concise reply to the user's email. Output only the reply text.".data

def oaUserDraft (content : GoStr) : GoStr :=
  "Write a reply to this email (HTML allowed):\n\n".data ++ content

/-- `reqBody` built by `OpenAIClient.SummarizeEmail`. -/
def oaSummarizeRequest (model content : GoStr) : ChatRequest :=
  ⟨model, [⟨"system".data, oaSysSummarize⟩, ⟨"user".data, oaUserSummarize content⟩], false⟩

/-- `reqBody` built by `OpenAIClient.ClassifyEmail`. -/
def oaClassifyRequest (model content : GoStr) : ChatRequest :=
  ⟨model, [⟨"system".data, oaSysClassify⟩, ⟨"user".data, oaUserClassify content⟩], false⟩

/-- `reqBody` built by `OpenAIClient.DraftReply`. -/
def oaDraftRequest (model content : GoStr) : ChatRequest :=
  ⟨model, [⟨"system".data, oaSysDraft⟩, ⟨"user".data, oaUserDraft content⟩], false⟩

/-! ## Task-method response handling -/

/-- Errors a task method can return (identified up to the Go error
message text; the payload recorded is the data the message interpolates). -/
inductive TaskError where
  /-- `failed to make request: ...` — `makeRequest` returned an error. -/
  | requestFailed
  /-- a decoded `APIError` returned as a typed error. -/
  | apiError (message : GoStr) (code : Int)
  /-- `unexpected status code: %d[, response: %s]` — generic non-200
  error; the body text is part of the message exactly when non-empty. -/
  | unexpectedStatus (status : Nat) (body : GoStr)
  /-- `failed to decode chat response`. -/
  | chatDecodeFailed
  /-- `no choices returned from model`. -/
  | noChoices
  /-- `model did not return valid JSON for classification` (the Deepseek
  message also carries the content that failed to decode). -/
  | invalidClassifyJson (content : GoStr)
deriving DecidableEq, Repr

instance {ε α : Type} [DecidableEq ε] [DecidableEq α] : DecidableEq (Except ε α) := fun x y =>
  match x, y with
  | .ok a, .ok b =>
    if h : a = b then .isTrue (congrArg Except.ok h)
    else .isFalse (fun hc => h (Except.ok.inj hc))
  | .error a, .error b =>
    if h : a = b then .isTrue (congrArg Except.error h)
    else .isFalse (fun hc => h (Except.error.inj hc))
  | .ok _, .error _ => .isFalse (fun hc => Except.noConfusion hc)
  | .error _, .ok _ => .isFalse (fun hc => Except.noConfusion hc)

/-- Non-200 handling shared by the three Deepseek task methods
(lines 182–197 / 226–241 / 297–312 of the client): read the body, try to
decode it as `APIError` and return that typed error on success, otherwise
return the generic status error (whose message carries the raw body text
when it is non-empty). -/
def dsNon200Error (status : Nat) (body : GoStr) : TaskError :=
  match unmarshalAPIError body with
  | some e => .apiError e.message e.code
  | none => .unexpectedStatus status body

/-- `DeepseekClient.SummarizeEmail`. -/
def dsSummarizeEmail (model : GoStr) (oracle : Nat → HttpOutcome)
    (content : GoStr) : Except TaskError SummaryResponse :=
  let _reqBody := dsSummarizeRequest model content
  let run := makeRequest oracle 3
  match run.result with
  | .err => .error .requestFailed
  | .ok status body =>
    if status ≠ 200 then .error (dsNon200Error status body)
    else
      match decodeChatResponse body with
      | none => .error .chatDecodeFailed
      | some cr =>
        match cr.choices with
        | [] => .error .noChoices
        | c0 :: _ => .ok ⟨goTrimSpace c0.message.content⟩

/-- The markdown-fence normalization inside `DeepseekClient.ClassifyEmail`
(lines 252–266): trim, then strip one ```` ```json ```` or bare
```` ``` ```` fence pair, then trim again. -/
def extractClassifyJson (content : GoStr) : GoStr :=
  let rc := goTrimSpace content
  if goStartsWith rc "```json".data then
    goTrimSpace (goTrimTrail (goTrimLead rc "```json".data) "```".data)
  else if goStartsWith rc "```".data then
    goTrimSpace (goTrimTrail (goTrimLead rc "```".data) "```".data)
  else rc

/-- The tail of `DeepseekClient.ClassifyEmail` after a choice is at hand:
normalize the model content, strict-decode it into `ClassifyResponse`;
decode failure is a terminal error carrying the content, and an empty
label list after a successful decode is only logged, still returned as
success. -/
def dsClassifyFromContent (content : GoStr) : Except TaskError ClassifyResponse :=
  let rc := extractClassifyJson content
  match unmarshalClassify rc with
  | none => .error (.invalidClassifyJson rc)
  | some out => .ok out

/-- `DeepseekClient.ClassifyEmail`. -/
def dsClassifyEmail (model : GoStr) (oracle : Nat → HttpOutcome)
    (content : GoStr) : Except TaskError ClassifyResponse :=
  let _reqBody := dsClassifyRequest model content
  let run := makeRequest oracle 3
  match run.result with
  | .err => .error .requestFailed
  | .ok status body =>
    if status ≠ 200 then .error (dsNon200Error status body)
    else
      match decodeChatResponse body with
      | none => .error .chatDecodeFailed
      | some cr =>
        match cr.choices with
        | [] => .error .noChoices
        | c0 :: _ => dsClassifyFromContent c0.message.content

/-- `DeepseekClient.DraftReply`. -/
def dsDraftReply (model : GoStr) (oracle : Nat → HttpOutcome)
    (content : GoStr) : Except TaskError DraftResponse :=
  let _reqBody := dsDraftRequest model content
  let run := makeRequest oracle 3
  match run.result with
  | .err => .error .requestFailed
  | .ok status body =>
    if status ≠ 200 then .error (dsNon200Error status body)
    else
      match decodeChatResponse body with
      | none => .error .chatDecodeFailed
      | some cr =>
        match cr.choices with
        | [] => .error .noChoices
        | c0 :: _ => .ok ⟨goTrimSpace c0.message.content⟩

/-- `OpenAIClient.SummarizeEmail`: single attempt, and every non-200 is
the generic status error (no `APIError` decode attempt). -/
def oaSummarizeEmail (model : GoStr) (oracle : Nat → HttpOutcome)
    (content : GoStr) : Except TaskError SummaryResponse :=
  let _reqBody := oaSummarizeRequest model content
  let run := oaMakeRequest oracle
  match run.result with
  | .err => .error .requestFailed
  | .ok status body =>
    if status ≠ 200 then .error (.unexpectedStatus status body)
    else
      match decodeChatResponse body with
      | none => .error .chatDecodeFailed
      | some cr =>
        match cr.choices with
        | [] => .error .noChoices
        | c0 :: _ => .ok ⟨goTrimSpace c0.message.content⟩

/-- `OpenAIClient.ClassifyEmail`: the raw `choices[0].message.content` is
unmarshalled directly — no `TrimSpace`, no fence stripping. -/
def oaClassifyEmail (model : GoStr) (oracle : Nat → HttpOutcome)
    (content : GoStr) : Except TaskError ClassifyResponse :=
  let _reqBody := oaClassifyRequest model content
  let run := oaMakeRequest oracle
  match run.result with
  | .err => .error .requestFailed
  | .ok status body =>
    if status ≠ 200 then .error (.unexpectedStatus status body)
    else
      match decodeChatResponse body with
      | none => .error .chatDecodeFailed
      | some cr =>
        match cr.choices with
        | [] => .error .noChoices
        | c0 :: _ =>
          match unmarshalClassify c0.message.content with
          | none => .error (.invalidClassifyJson c0.message.content)
          | some out => .ok out

/-- `OpenAIClient.DraftReply`. -/
def oaDraftReply (model : GoStr) (oracle : Nat → HttpOutcome)
    (content : GoStr) : Except TaskError DraftResponse :=
  let _reqBody := oaDraftRequest model content
  let run := oaMakeRequest oracle
  match run.result with
  | .err => .error .requestFailed
  | .ok status body =>
    if status ≠ 200 then .error (.unexpectedStatus status body)
    else
      match decodeChatResponse body with
      | none => .error .chatDecodeFailed
      | some cr =>
        match cr.choices with
        | [] => .error .noChoices
        | c0 :: _ => .ok ⟨goTrimSpace c0.message.content⟩

/-! ## Batch classification orchestrator -/

/-- The body of `ClassifyEmailsBatch`'s loop for one email: classify it;
on error log and fall back to `{id, labels: []}`, otherwise keep the id
and the decoded labels. -/
def dsBatchItem (model : GoStr) (oracle : Nat → HttpOutcome)
    (email : EmailRequest) : BatchClassificationResult :=
  match dsClassifyEmail model oracle email.content with
  | .error _ => ⟨email.id, []⟩
  | .ok classification => ⟨email.id, classification.labels⟩

/-- The sequential loop of `ClassifyEmailsBatch`, starting at index `i`.
`oracles i` is the environment seen by the `i`-th email's own retry
sequence. -/
def dsBatchResultsFrom (model : GoStr) (oracles : Nat → Nat → HttpOutcome) :
    Nat → List EmailRequest → List BatchClassificationResult
  | _, [] => []
  | i, email :: rest =>
    dsBatchItem model (oracles i) email :: dsBatchResultsFrom model oracles (i + 1) rest

/-- `DeepseekClient.ClassifyEmailsBatch`: processes the emails
sequentially and always returns `(results, nil)`. -/
def dsClassifyEmailsBatch (model : GoStr) (oracles : Nat → Nat → HttpOutcome)
    (emails : List EmailRequest) : Except TaskError (List BatchClassificationResult) :=
  .ok (dsBatchResultsFrom model oracles 0 emails)

/-! ## Classify handler response building (main.go lines 264–273) -/

/-- The handler copies only `ID` and `Labels` of each per-email result
into the outward-facing response. -/
def buildBatchClassifyResponse (results : List BatchClassificationResult) :
    BatchClassifyResponse :=
  ⟨results.map (fun r => ⟨r.id, r.labels⟩)⟩

/-- The classification response the `/classify` handler sends for a
validated batch. -/
def classifyHandlerResponse (model : GoStr) (oracles : Nat → Nat → HttpOutcome)
    (emails : List EmailRequest) : BatchClassifyResponse :=
  buildBatchClassifyResponse (dsBatchResultsFrom model oracles 0 emails)

/-! ## Helper lemmas about the retry loop -/

/-- Unfolding `mrLoop` when the current attempt hits a transport failure. -/
theorem mrLoop_eq_transport (o : Nat → HttpOutcome) (mR a f : Nat)
    (h : o a = .transportFail) :
    mrLoop o mR a (f + 1) =
      ⟨(mrLoop o mR (a + 1) f).result, (mrLoop o mR (a + 1) f).attempts + 1,
        (if a = 0 then [] else [2 ^ (a - 1)]) ++ (mrLoop o mR (a + 1) f).backoffs⟩ := by
  simp [mrLoop, h]

/-- Unfolding `mrLoop` when the current attempt gets a 5xx that is retried. -/
theorem mrLoop_eq_retry (o : Nat → HttpOutcome) (mR a f s : Nat) (b : GoStr)
    (h : o a = .response s b) (hc : 500 ≤ s ∧ s < 600 ∧ a < mR) :
    mrLoop o mR a (f + 1) =
      ⟨(mrLoop o mR (a + 1) f).result, (mrLoop o mR (a + 1) f).attempts + 1,
        (if a = 0 then [] else [2 ^ (a - 1)]) ++ (mrLoop o mR (a + 1) f).backoffs⟩ := by
  simp only [mrLoop, h]
  rw [if_pos hc]

/-- Unfolding `mrLoop` when the current attempt gets a response that is
returned to the caller. -/
theorem mrLoop_eq_return (o : Nat → HttpOutcome) (mR a f s : Nat) (b : GoStr)
    (h : o a = .response s b) (hc : ¬(500 ≤ s ∧ s < 600 ∧ a < mR)) :
    mrLoop o mR a (f + 1) = ⟨.ok s b, 1, if a = 0 then [] else [2 ^ (a - 1)]⟩ := by
  simp only [mrLoop, h]
  rw [if_neg hc]

theorem mrLoop_attempts_le (o : Nat → HttpOutcome) (mR : Nat) :
    ∀ f a, (mrLoop o mR a f).attempts ≤ f := by
  intro f
  induction f with
  | zero => intro a; simp [mrLoop]
  | succ f ih =>
    intro a
    cases ho : o a with
    | transportFail =>
      rw [mrLoop_eq_transport o mR a f ho]
      have := ih (a + 1)
      simp only
      omega
    | response s b =>
      by_cases hc : 500 ≤ s ∧ s < 600 ∧ a < mR
      · rw [mrLoop_eq_retry o mR a f s b ho hc]
        have := ih (a + 1)
        simp only
        omega
      · rw [mrLoop_eq_return o mR a f s b ho hc]
        simp only
        omega

theorem mrLoop_retry_retriable (o : Nat → HttpOutcome) (mR : Nat) :
    ∀ f a i, i + 1 < (mrLoop o mR a f).attempts → retriable (o (a + i)) := by
  intro f
  induction f with
  | zero => intro a i h; simp [mrLoop] at h
  | succ f ih =>
    intro a i h
    cases ho : o a with
    | transportFail =>
      rw [mrLoop_eq_transport o mR a f ho] at h
      simp only at h
      cases i with
      | zero =>
        have : retriable HttpOutcome.transportFail := trivial
        simpa [ho] using this
      | succ j =>
        have := ih (a + 1) j (by omega)
        have harith : a + 1 + j = a + (j + 1) := by omega
        rwa [harith] at this
    | response s b =>
      by_cases hc : 500 ≤ s ∧ s < 600 ∧ a < mR
      · rw [mrLoop_eq_retry o mR a f s b ho hc] at h
        simp only at h
        cases i with
        | zero =>
          have : retriable (HttpOutcome.response s b) := ⟨hc.1, hc.2.1⟩
          simpa [ho] using this
        | succ j =>
          have := ih (a + 1) j (by omega)
          have harith : a + 1 + j = a + (j + 1) := by omega
          rwa [harith] at this
      · rw [mrLoop_eq_return o mR a f s b ho hc] at h
        simp only at h
        omega

theorem mrLoop_backoffs_of_pos (o : Nat → HttpOutcome) (mR : Nat) :
    ∀ f a, 1 ≤ a →
      (mrLoop o mR a f).backoffs =
        (List.range (mrLoop o mR a f).attempts).map (fun j => 2 ^ (a - 1 + j)) := by
  intro f
  induction f with
  | zero => intro a _; simp [mrLoop]
  | succ f ih =>
    intro a ha
    have hb : (if a = 0 then ([] : List Nat) else [2 ^ (a - 1)]) = [2 ^ (a - 1)] :=
      if_neg (by omega)
    have harith : ∀ j, a - 1 + (j + 1) = a + j := by omega
    have hrec : (mrLoop o mR (a + 1) f).backoffs =
        (List.range (mrLoop o mR (a + 1) f).attempts).map (fun j => 2 ^ (a + j)) := by
      have := ih (a + 1) (by omega)
      simpa using this
    cases ho : o a with
    | transportFail =>
      rw [mrLoop_eq_transport o mR a f ho, hb]
      simp only [hrec, List.range_succ_eq_map, List.map_cons, List.map_map]
      simp [Function.comp, harith]
    | response s b =>
      by_cases hc : 500 ≤ s ∧ s < 600 ∧ a < mR
      · rw [mrLoop_eq_retry o mR a f s b ho hc, hb]
        simp only [hrec, List.range_succ_eq_map, List.map_cons, List.map_map]
        simp [Function.comp, harith]
      · rw [mrLoop_eq_return o mR a f s b ho hc, hb]
        simp [List.range_succ_eq_map]

theorem makeRequest_backoffs (o : Nat → HttpOutcome) (mR : Nat) :
    (makeRequest o mR).backoffs =
      (List.range ((makeRequest o mR).attempts - 1)).map (fun j => 2 ^ j) := by
  unfold makeRequest
  have hrec : (mrLoop o mR 1 mR).backoffs =
      (List.range (mrLoop o mR 1 mR).attempts).map (fun j => 2 ^ j) := by
    have := mrLoop_backoffs_of_pos o mR mR 1 (by omega)
    simpa using this
  cases ho : o 0 with
  | transportFail =>
    rw [mrLoop_eq_transport o mR 0 mR ho]
    simpa using hrec
  | response s b =>
    by_cases hc : 500 ≤ s ∧ s < 600 ∧ 0 < mR
    · rw [mrLoop_eq_retry o mR 0 mR s b ho hc]
      simpa using hrec
    · rw [mrLoop_eq_return o mR 0 mR s b ho hc]
      simp

theorem makeRequest_return_first (o : Nat → HttpOutcome) (mR s : Nat) (b : GoStr)
    (h : o 0 = .response s b) (h5 : ¬(500 ≤ s ∧ s < 600 ∧ 0 < mR)) :
    makeRequest o mR = ⟨.ok s b, 1, []⟩ := by
  unfold makeRequest
  rw [mrLoop_eq_return o mR 0 mR s b h h5]
  simp

theorem mrLoop_err_last_transport (o : Nat → HttpOutcome) (mR : Nat) :
    ∀ f a, a + f = mR + 1 → 1 ≤ f → (mrLoop o mR a f).result = .err →
      o mR = .transportFail := by
  intro f
  induction f with
  | zero => intro a _ h1 _; omega
  | succ f ih =>
    intro a hsum _ hres
    cases ho : o a with
    | transportFail =>
      rw [mrLoop_eq_transport o mR a f ho] at hres
      simp only at hres
      rcases Nat.eq_zero_or_pos f with hf | hf
      · have ha : a = mR := by omega
        rw [← ha]; exact ho
      · exact ih (a + 1) (by omega) hf hres
    | response s b =>
      by_cases hc : 500 ≤ s ∧ s < 600 ∧ a < mR
      · rw [mrLoop_eq_retry o mR a f s b ho hc] at hres
        simp only at hres
        exact ih (a + 1) (by omega) (by omega) hres
      · rw [mrLoop_eq_return o mR a f s b ho hc] at hres
        simp at hres

theorem mrLoop_final_5xx (o : Nat → HttpOutcome) (mR s : Nat) (b : GoStr)
    (hmR : o mR = .response s b) :
    ∀ f a, a + f = mR + 1 → 1 ≤ f →
      (∀ k, a ≤ k → k < mR → retriable (o k)) →
      (mrLoop o mR a f).result = .ok s b := by
  intro f
  induction f with
  | zero => intro a _ h1 _; omega
  | succ f ih =>
    intro a hsum _ hret
    rcases Nat.eq_zero_or_pos f with hf | hf
    · have ha : a = mR := by omega
      have ho : o a = .response s b := by rw [ha]; exact hmR
      rw [mrLoop_eq_return o mR a f s b ho (by omega)]
    · have haR : a < mR := by omega
      have hra := hret a le_rfl haR
      cases ho : o a with
      | transportFail =>
        rw [mrLoop_eq_transport o mR a f ho]
        simp only
        exact ih (a + 1) (by omega) hf (fun k hk1 hk2 => hret k (by omega) hk2)
      | response s' b' =>
        rw [ho] at hra
        rw [mrLoop_eq_retry o mR a f s' b' ho ⟨hra.1, hra.2, haR⟩]
        simp only
        exact ih (a + 1) (by omega) hf (fun k hk1 hk2 => hret k (by omega) hk2)

/-! ## Helper lemmas about the Go string functions -/

theorem goTrimLeft_cons_of_not_space (c : Char) (t : GoStr)
    (h : goIsSpace c = false) : goTrimLeft (c :: t) = c :: t := by
  simp [goTrimLeft, List.dropWhile_cons, h]

theorem goTrimRight_append_singleton (c : Char) (s : GoStr)
    (h : goIsSpace c = false) : goTrimRight (s ++ [c]) = s ++ [c] := by
  induction s with
  | nil => simp [goTrimRight, h]
  | cons a s ih =>
    show goTrimRight (a :: (s ++ [c])) = a :: (s ++ [c])
    cases hs : s ++ [c] with
    | nil => simp at hs
    | cons x r =>
      rw [hs] at ih
      rw [goTrimRight, ih]

theorem goTrimSpace_keep (c d : Char) (m : GoStr)
    (hc : goIsSpace c = false) (hd : goIsSpace d = false) :
    goTrimSpace (c :: (m ++ [d])) = c :: (m ++ [d]) := by
  unfold goTrimSpace
  have h1 : goTrimRight (c :: (m ++ [d])) = c :: (m ++ [d]) := by
    have := goTrimRight_append_singleton d (c :: m) hd
    simpa using this
  rw [h1]
  exact goTrimLeft_cons_of_not_space _ _ hc

theorem isPrefixOf_append_self (p x : GoStr) : p.isPrefixOf (p ++ x) = true := by
  induction p with
  | nil => simp [List.isPrefixOf]
  | cons c p ih => simp [List.isPrefixOf, ih]

theorem isPrefixOf_append_both (p a b : GoStr) :
    (p ++ a).isPrefixOf (p ++ b) = a.isPrefixOf b := by
  induction p with
  | nil => simp
  | cons c p ih => simp [List.isPrefixOf, ih]

theorem isPrefixOf_cons_neq (a b : Char) (p s : GoStr) (h : a ≠ b) :
    (a :: p).isPrefixOf (b :: s) = false := by
  simp [List.isPrefixOf, h]

theorem goTrimLead_append (p x : GoStr) : goTrimLead (p ++ x) p = x := by
  unfold goTrimLead goStartsWith
  rw [isPrefixOf_append_self]
  simp [List.drop_left]

theorem goEndsWith_append (x s : GoStr) : goEndsWith (x ++ s) s = true := by
  unfold goEndsWith
  unfold List.isSuffixOf
  rw [List.reverse_append]
  exact isPrefixOf_append_self _ _

theorem goTrimTrail_append (x s : GoStr) : goTrimTrail (x ++ s) s = x := by
  unfold goTrimTrail
  rw [goEndsWith_append]
  have h : (x ++ s).length - s.length = x.length := by
    simp [List.length_append]
  rw [if_pos rfl, h, List.take_left]

/-- A non-whitespace head survives `TrimSpace`. -/
theorem goTrimSpace_cons_head (c : Char) (t : GoStr) (h : goIsSpace c = false) :
    ∃ r, goTrimSpace (c :: t) = c :: r := by
  obtain ⟨r, hr⟩ : ∃ r, goTrimRight (c :: t) = c :: r := by
    simp only [goTrimRight]
    cases goTrimRight t with
    | nil => exact ⟨[], by rw [if_neg (by simp [h])]⟩
    | cons x r => exact ⟨x :: r, rfl⟩
  refine ⟨r, ?_⟩
  unfold goTrimSpace
  rw [hr]
  exact goTrimLeft_cons_of_not_space c r h

/-- If the trimmed content is a JSON object (starts with a brace), then
`"json"` is not a prefix of the content followed by anything. -/
theorem json_tag_not_prefixOf (j s r : GoStr)
    (hobj : goTrimSpace j = '\x7b' :: r) :
    ("json".data).isPrefixOf (j ++ s) = false := by
  cases j with
  | nil => simp [goTrimSpace, goTrimRight, goTrimLeft] at hobj
  | cons c t =>
    have hcj : c ≠ 'j' := by
      intro hc
      subst hc
      obtain ⟨r', hr'⟩ := goTrimSpace_cons_head 'j' t (by decide)
      rw [hr'] at hobj
      exact absurd (List.head_eq_of_cons_eq hobj) (by decide)
    show (('j' :: "son".data).isPrefixOf (c :: (t ++ s))) = false
    exact isPrefixOf_cons_neq 'j' c _ _ (fun h => hcj h.symm)

/-! ## Behaviour of the classify fence-stripping -/

/-- Content wrapped in a ```` ```json ```` fence strips to the trimmed
inner text. -/
theorem extractClassifyJson_json_fence (j : GoStr) :
    extractClassifyJson ("```json".data ++ j ++ "```".data) = goTrimSpace j := by
  have htrim : goTrimSpace ("```json".data ++ j ++ "```".data) =
      "```json".data ++ j ++ "```".data := by
    have hshape : "```json".data ++ j ++ "```".data =
        '`' :: ((['`', '`', 'j', 's', 'o', 'n'] ++ j ++ ['`', '`']) ++ ['`']) := by
      show ['`', '`', '`', 'j', 's', 'o', 'n'] ++ j ++ ['`', '`', '`'] = _
      simp
    rw [hshape, goTrimSpace_keep '`' '`' _ (by decide) (by decide)]
  unfold extractClassifyJson
  rw [htrim]
  have hpre : goStartsWith ("```json".data ++ j ++ "```".data) ("```json".data) = true := by
    unfold goStartsWith
    rw [List.append_assoc]
    exact isPrefixOf_append_self _ _
  rw [if_pos hpre]
  rw [List.append_assoc, goTrimLead_append, goTrimTrail_append]

/-- Content wrapped in a bare ```` ``` ```` fence (whose inner text does
not begin with the `json` tag) strips to the trimmed inner text. -/
theorem extractClassifyJson_bare_fence (j : GoStr)
    (hnj : ("json".data).isPrefixOf (j ++ "```".data) = false) :
    extractClassifyJson ("```".data ++ j ++ "```".data) = goTrimSpace j := by
  have htrim : goTrimSpace ("```".data ++ j ++ "```".data) =
      "```".data ++ j ++ "```".data := by
    have hshape : "```".data ++ j ++ "```".data =
        '`' :: ((['`', '`'] ++ j ++ ['`', '`']) ++ ['`']) := by
      show ['`', '`', '`'] ++ j ++ ['`', '`', '`'] = _
      simp
    rw [hshape, goTrimSpace_keep '`' '`' _ (by decide) (by decide)]
  unfold extractClassifyJson
  rw [htrim]
  have hnpre : goStartsWith ("```".data ++ j ++ "```".data) ("```json".data) = false := by
    unfold goStartsWith
    have hsplit : "```json".data = "```".data ++ "json".data := by decide
    rw [hsplit, List.append_assoc, isPrefixOf_append_both]
    exact hnj
  rw [if_neg (by simpa using hnpre)]
  have hpre : goStartsWith ("```".data ++ j ++ "```".data) ("```".data) = true := by
    unfold goStartsWith
    rw [List.append_assoc]
    exact isPrefixOf_append_self _ _
  rw [if_pos (by simpa using hpre)]
  rw [List.append_assoc, goTrimLead_append, goTrimTrail_append]

/-- Unfenced object content passes through the fence-stripping as plain
trimming. -/
theorem extractClassifyJson_of_obj (j r : GoStr)
    (hobj : goTrimSpace j = '\x7b' :: r) :
    extractClassifyJson j = goTrimSpace j := by
  unfold extractClassifyJson
  rw [hobj]
  have h1 : goStartsWith ('\x7b' :: r) ("```json".data) = false := by
    unfold goStartsWith
    show (('`' :: "``json".data).isPrefixOf ('\x7b' :: r)) = false
    exact isPrefixOf_cons_neq _ _ _ _ (by decide)
  have h2 : goStartsWith ('\x7b' :: r) ("```".data) = false := by
    unfold goStartsWith
    show (('`' :: "``".data).isPrefixOf ('\x7b' :: r)) = false
    exact isPrefixOf_cons_neq _ _ _ _ (by decide)
  rw [if_neg (by simp [h1]), if_neg (by simp [h2])]

/-! ## Batch-loop helper lemmas -/

def dfltEmail : EmailRequest := ⟨[], []⟩

def dfltBatchResult : BatchClassificationResult := ⟨[], []⟩

theorem dsBatchResultsFrom_length (model : GoStr) (oracles : Nat → Nat → HttpOutcome) :
    ∀ emails i, (dsBatchResultsFrom model oracles i emails).length = emails.length := by
  intro emails
  induction emails with
  | nil => intro i; rfl
  | cons e rest ih => intro i; simp [dsBatchResultsFrom, ih]

theorem dsBatchResultsFrom_getD (model : GoStr) (oracles : Nat → Nat → HttpOutcome) :
    ∀ emails i j, j < emails.length →
      (dsBatchResultsFrom model oracles i emails).getD j dfltBatchResult =
        dsBatchItem model (oracles (i + j)) (emails.getD j dfltEmail) := by
  intro emails
  induction emails with
  | nil => intro i j h; simp at h
  | cons e rest ih =>
    intro i j h
    cases j with
    | zero => simp [dsBatchResultsFrom]
    | succ j' =>
      simp only [dsBatchResultsFrom, List.getD_cons_succ]
      have := ih (i + 1) j' (by simpa using h)
      rwa [show i + 1 + j' = i + (j' + 1) by omega] at this

/-! ## Claim C1 -/

/-- C1: with `maxRetries = 3` (the value every task method passes), the
Deepseek `makeRequest` performs at most 4 outbound HTTP attempts; attempt
`i + 1` happens only after a transport failure or a 5xx status on attempt
`i`; the backoffs slept are exactly `2^(k-1)` seconds before retry attempt
`k` (so `1s, 2s, 4s` in order); and a response whose status is 4xx ends
the loop after exactly one attempt with no retry and no sleep. -/
theorem deepseek_makeRequest_retry_policy (oracle : Nat → HttpOutcome) :
    (makeRequest oracle 3).attempts ≤ 4 ∧
    (makeRequest oracle 3).backoffs =
      (List.range ((makeRequest oracle 3).attempts - 1)).map (fun k => 2 ^ k) ∧
    (∀ i, i + 1 < (makeRequest oracle 3).attempts → retriable (oracle i)) ∧
    (∀ s b, oracle 0 = .response s b → 400 ≤ s → s < 500 →
      makeRequest oracle 3 = ⟨.ok s b, 1, []⟩) := by
  refine ⟨mrLoop_attempts_le oracle 3 4 0, makeRequest_backoffs oracle 3, ?_, ?_⟩
  · intro i h
    have := mrLoop_retry_retriable oracle 3 4 0 i h
    simpa using this
  · intro s b h h4 h5
    exact makeRequest_return_first oracle 3 s b h (by omega)

def exOracle404 : Nat → HttpOutcome := fun _ => .response 404 "bad".data

/-- Witness for C1 at a concrete 404 oracle: one attempt, no sleeps. -/
theorem deepseek_makeRequest_retry_policy_witness :
    makeRequest exOracle404 3 = ⟨.ok 404 "bad".data, 1, []⟩ ∧
    (makeRequest exOracle404 3).attempts ≤ 4 :=
  ⟨(deepseek_makeRequest_retry_policy exOracle404).2.2.2 404 "bad".data rfl
      (by decide) (by decide),
    (deepseek_makeRequest_retry_policy exOracle404).1⟩

/-! ## Claim C10 -/

/-- C10: a 5xx received on the final allowed attempt of `makeRequest` is
returned to the caller as a normal response with a nil error, and the
`failed after N retries` error is returned only when the final attempt
itself ended in a transport failure. -/
theorem makeRequest_final_attempt_semantics (oracle : Nat → HttpOutcome)
    (maxRetries s : Nat) (b : GoStr) :
    ((∀ k, k < maxRetries → retriable (oracle k)) →
      oracle maxRetries = .response s b → 500 ≤ s → s < 600 →
      (makeRequest oracle maxRetries).result = .ok s b) ∧
    ((makeRequest oracle maxRetries).result = .err →
      oracle maxRetries = .transportFail) := by
  constructor
  · intro hret hmR _ _
    exact mrLoop_final_5xx oracle maxRetries s b hmR (maxRetries + 1) 0
      (by omega) (by omega) (fun k _ hk2 => hret k hk2)
  · intro herr
    exact mrLoop_err_last_transport oracle maxRetries (maxRetries + 1) 0
      (by omega) (by omega) herr

def exOracle503 : Nat → HttpOutcome := fun _ => .response 503 []

def exOracleDown : Nat → HttpOutcome := fun _ => .transportFail

/-- Witness for C10: all-503 yields the last 503 as a nil-error response;
the retries-exhausted error coincides with a transport failure on the
final attempt. -/
theorem makeRequest_final_attempt_semantics_witness :
    (makeRequest exOracle503 3).result = .ok 503 [] ∧
    exOracleDown 3 = .transportFail :=
  ⟨(makeRequest_final_attempt_semantics exOracle503 3 503 []).1
      (fun k _ => show retriable (HttpOutcome.response 503 []) by decide)
      rfl (by decide) (by decide),
    (makeRequest_final_attempt_semantics exOracleDown 3 0 []).2 (by decide)⟩

/-! ## Claim C2 -/

/-- C2: `ClassifyEmailsBatch` always returns a nil error together with
one result per input email in input order; the result at index `i`
carries the id of the input at index `i`, and when `ClassifyEmail` fails
for that input the result at `i` is `{id, labels: []}` while the batch
still succeeds. -/
theorem classifyEmailsBatch_total_ordered (model : GoStr)
    (oracles : Nat → Nat → HttpOutcome) (emails : List EmailRequest) :
    dsClassifyEmailsBatch model oracles emails =
      .ok (dsBatchResultsFrom model oracles 0 emails) ∧
    (dsBatchResultsFrom model oracles 0 emails).length = emails.length ∧
    (∀ i, i < emails.length →
      ((dsBatchResultsFrom model oracles 0 emails).getD i dfltBatchResult).id =
        (emails.getD i dfltEmail).id ∧
      (∀ e, dsClassifyEmail model (oracles i) ((emails.getD i dfltEmail).content) =
          .error e →
        ((dsBatchResultsFrom model oracles 0 emails).getD i dfltBatchResult).labels =
          [])) := by
  refine ⟨rfl, dsBatchResultsFrom_length model oracles emails 0, ?_⟩
  intro i hi
  have hg := dsBatchResultsFrom_getD model oracles emails 0 i hi
  rw [show (0 : Nat) + i = i by omega] at hg
  rw [hg]
  constructor
  · unfold dsBatchItem
    cases dsClassifyEmail model (oracles i) ((emails.getD i dfltEmail).content) <;> rfl
  · intro e he
    unfold dsBatchItem
    rw [he]

def exModel : GoStr := "deepseek-chat".data

def exBodyLabels : GoStr :=
  "\x7b\"choices\":[\x7b\"message\":\x7b\"role\":\"assistant\",\"content\":\"\x7b\\\"labels\\\":[\x7b\\\"label\\\":\\\"spam\\\",\\\"score\\\":1\x7d]\x7d\"\x7d\x7d]\x7d".data

def exEmailsBatch : List EmailRequest :=
  [⟨"a".data, "first mail".data⟩, ⟨"b".data, "second mail".data⟩]

/-- Per-email upstream environments for the batch witness: email 0 gets a
well-formed 200, email 1 gets a 404 and therefore fails. -/
def exOrcsBatch : Nat → Nat → HttpOutcome := fun i _ =>
  if i = 0 then .response 200 exBodyLabels else .response 404 []

/-- Witness for C2: the failing second email degrades to `{id, labels: []}`
and the batch still reports both results in order. -/
theorem classifyEmailsBatch_total_ordered_witness :
    ((dsBatchResultsFrom exModel exOrcsBatch 0 exEmailsBatch).getD 1 dfltBatchResult).labels
        = [] ∧
    ((dsBatchResultsFrom exModel exOrcsBatch 0 exEmailsBatch).getD 1 dfltBatchResult).id
        = "b".data ∧
    (dsBatchResultsFrom exModel exOrcsBatch 0 exEmailsBatch).length = 2 :=
  ⟨((classifyEmailsBatch_total_ordered exModel exOrcsBatch exEmailsBatch).2.2 1
      (by decide)).2 (.unexpectedStatus 404 []) (by decide),
    ((classifyEmailsBatch_total_ordered exModel exOrcsBatch exEmailsBatch).2.2 1
      (by decide)).1,
    (classifyEmailsBatch_total_ordered exModel exOrcsBatch exEmailsBatch).2.1⟩

/-! ## Claim C9 -/

/-- The classify result of one email does not depend on the email text
itself: the content only feeds the outbound request, and the modelled
upstream reply is a function of the attempt index alone. -/
theorem dsClassifyEmail_content_irrelevant (model : GoStr)
    (oracle : Nat → HttpOutcome) (c c' : GoStr) :
    dsClassifyEmail model oracle c = dsClassifyEmail model oracle c' := rfl

theorem dsBatchResultsFrom_id_only (model : GoStr) (oracles : Nat → Nat → HttpOutcome) :
    ∀ emails emails' : List EmailRequest, ∀ i,
      emails.map EmailRequest.id = emails'.map EmailRequest.id →
      dsBatchResultsFrom model oracles i emails =
        dsBatchResultsFrom model oracles i emails' := by
  intro emails
  induction emails with
  | nil =>
    intro emails' i h
    cases emails' with
    | nil => rfl
    | cons e r => simp at h
  | cons e rest ih =>
    intro emails' i h
    cases emails' with
    | nil => simp at h
    | cons e' rest' =>
      simp only [List.map_cons, List.cons.injEq] at h
      simp only [dsBatchResultsFrom]
      rw [ih rest' (i + 1) h.2]
      congr 1
      unfold dsBatchItem
      rw [dsClassifyEmail_content_irrelevant model (oracles i) e.content e'.content]
      cases dsClassifyEmail model (oracles i) e'.content <;> simp [h.1]

/-- C9: the `/classify` response carries only `id` and `labels` per email:
the handler projects exactly those two fields, and replacing every email
body (keeping the ids) leaves the classification response unchanged given
the same upstream replies — no email body content flows into the
response. -/
theorem classify_response_no_body_content (model : GoStr)
    (oracles : Nat → Nat → HttpOutcome) (emails emails' : List EmailRequest)
    (hids : emails.map EmailRequest.id = emails'.map EmailRequest.id) :
    classifyHandlerResponse model oracles emails =
      classifyHandlerResponse model oracles emails' ∧
    (classifyHandlerResponse model oracles emails).results =
      (dsBatchResultsFrom model oracles 0 emails).map (fun r => ⟨r.id, r.labels⟩) := by
  constructor
  · unfold classifyHandlerResponse
    rw [dsBatchResultsFrom_id_only model oracles emails emails' 0 hids]
  · rfl

def exEmailsAlt : List EmailRequest :=
  [⟨"a".data, "completely different body".data⟩, ⟨"b".data, "changed too".data⟩]

/-- Witness for C9: swapping every email body (ids fixed) leaves the
handler response identical. -/
theorem classify_response_no_body_content_witness :
    classifyHandlerResponse exModel exOrcsBatch exEmailsBatch =
      classifyHandlerResponse exModel exOrcsBatch exEmailsAlt :=
  (classify_response_no_body_content exModel exOrcsBatch exEmailsBatch exEmailsAlt
    (by decide)).1

/-! ## Claim C5 -/

/-- C5: on a non-200 upstream status, every Deepseek task method first
tries to decode the body as the structured `APIError {message, code}` and
returns that typed error when the decode succeeds; when the decode fails
it returns the generic error carrying the status code and the raw body
text. -/
theorem deepseek_non200_error_decode (model : GoStr) (oracle : Nat → HttpOutcome)
    (content : GoStr) (status : Nat) (body : GoStr)
    (hrun : (makeRequest oracle 3).result = .ok status body)
    (hstatus : status ≠ 200) :
    (∀ e, unmarshalAPIError body = some e →
      dsSummarizeEmail model oracle content = .error (.apiError e.message e.code) ∧
      dsClassifyEmail model oracle content = .error (.apiError e.message e.code) ∧
      dsDraftReply model oracle content = .error (.apiError e.message e.code)) ∧
    (unmarshalAPIError body = none →
      dsSummarizeEmail model oracle content = .error (.unexpectedStatus status body) ∧
      dsClassifyEmail model oracle content = .error (.unexpectedStatus status body) ∧
      dsDraftReply model oracle content = .error (.unexpectedStatus status body)) := by
  constructor
  · intro e he
    refine ⟨?_, ?_, ?_⟩ <;>
      simp [dsSummarizeEmail, dsClassifyEmail, dsDraftReply, hrun, hstatus,
        dsNon200Error, he]
  · intro he
    refine ⟨?_, ?_, ?_⟩ <;>
      simp [dsSummarizeEmail, dsClassifyEmail, dsDraftReply, hrun, hstatus,
        dsNon200Error, he]

def exApiBody : GoStr := "\x7b\"message\":\"Not Found\",\"code\":404\x7d".data

def exOracleApi400 : Nat → HttpOutcome := fun _ => .response 400 exApiBody

def exOracle418 : Nat → HttpOutcome := fun _ => .response 418 "teapot".data

/-- Witness for C5: a decodable 400 body becomes the typed `APIError`;
an undecodable 418 body becomes the generic status error. -/
theorem deepseek_non200_error_decode_witness :
    dsSummarizeEmail exModel exOracleApi400 "hi".data =
      .error (.apiError "Not Found".data 404) ∧
    dsClassifyEmail exModel exOracle418 "hi".data =
      .error (.unexpectedStatus 418 "teapot".data) :=
  ⟨((deepseek_non200_error_decode exModel exOracleApi400 "hi".data 400 exApiBody
      rfl (by decide)).1 ⟨"Not Found".data, 404⟩ (by decide)).1,
    ((deepseek_non200_error_decode exModel exOracle418 "hi".data 418 "teapot".data
      rfl (by decide)).2 (by decide)).2.1⟩

/-! ## Claim C6 -/

/-- C6: a 200 response whose decoded body has zero choices makes every
task method of both clients fail with the `no choices returned` error,
never succeed. -/
theorem zero_choices_error (model : GoStr) (oracle : Nat → HttpOutcome)
    (content body : GoStr) (cr : ChatResponse)
    (hcr : decodeChatResponse body = some cr) (hch : cr.choices = []) :
    ((makeRequest oracle 3).result = .ok 200 body →
      dsSummarizeEmail model oracle content = .error .noChoices ∧
      dsClassifyEmail model oracle content = .error .noChoices ∧
      dsDraftReply model oracle content = .error .noChoices) ∧
    (oracle 0 = .response 200 body →
      oaSummarizeEmail model oracle content = .error .noChoices ∧
      oaClassifyEmail model oracle content = .error .noChoices ∧
      oaDraftReply model oracle content = .error .noChoices) := by
  constructor
  · intro hrun
    refine ⟨?_, ?_, ?_⟩ <;>
      simp [dsSummarizeEmail, dsClassifyEmail, dsDraftReply, hrun, hcr, hch]
  · intro h0
    have hoa : oaMakeRequest oracle = ⟨.ok 200 body, 1, []⟩ := by
      simp [oaMakeRequest, h0]
    refine ⟨?_, ?_, ?_⟩ <;>
      simp [oaSummarizeEmail, oaClassifyEmail, oaDraftReply, hoa, hcr, hch]

def exBodyNoChoices : GoStr := "\x7b\"choices\":[]\x7d".data

def exOracleNoChoices : Nat → HttpOutcome := fun _ => .response 200 exBodyNoChoices

/-- Witness for C6 at a concrete `{"choices":[]}` body. -/
theorem zero_choices_error_witness :
    dsSummarizeEmail exModel exOracleNoChoices "hi".data = .error .noChoices ∧
    oaSummarizeEmail exModel exOracleNoChoices "hi".data = .error .noChoices :=
  ⟨((zero_choices_error exModel exOracleNoChoices "hi".data exBodyNoChoices ⟨[]⟩
      (by decide) rfl).1 rfl).1,
    ((zero_choices_error exModel exOracleNoChoices "hi".data exBodyNoChoices ⟨[]⟩
      (by decide) rfl).2 rfl).1⟩

/-! ## Claim C7 -/

/-- C7: for non-empty content, a 200 response with at least one choice
makes the summarize and draft paths return exactly
`choices[0].message.content` with surrounding whitespace trimmed, with no
further validation or modification. -/
theorem summarize_draft_trimmed (model : GoStr) (oracle : Nat → HttpOutcome)
    (content body : GoStr) (cr : ChatResponse) (c0 : ChatChoice)
    (rest : List ChatChoice)
    (_hcontent : content ≠ [])
    (hrun : (makeRequest oracle 3).result = .ok 200 body)
    (hcr : decodeChatResponse body = some cr)
    (hch : cr.choices = c0 :: rest) :
    dsSummarizeEmail model oracle content = .ok ⟨goTrimSpace c0.message.content⟩ ∧
    dsDraftReply model oracle content = .ok ⟨goTrimSpace c0.message.content⟩ := by
  refine ⟨?_, ?_⟩ <;> simp [dsSummarizeEmail, dsDraftReply, hrun, hcr, hch]

def exBodySummary : GoStr :=
  "\x7b\"choices\":[\x7b\"index\":0,\"finish_reason\":\"stop\",\"message\":\x7b\"role\":\"assistant\",\"content\":\"  hi \\n\"\x7d\x7d]\x7d".data

def exOracleSummary : Nat → HttpOutcome := fun _ => .response 200 exBodySummary

def exChoiceSummary : ChatChoice := ⟨0, "stop".data, ⟨"assistant".data, "  hi \n".data⟩⟩

/-- Witness for C7: model text `"  hi \n"` comes back as exactly `"hi"`. -/
theorem summarize_draft_trimmed_witness :
    dsSummarizeEmail exModel exOracleSummary "mail".data = .ok ⟨"hi".data⟩ ∧
    dsDraftReply exModel exOracleSummary "mail".data = .ok ⟨"hi".data⟩ :=
  summarize_draft_trimmed exModel exOracleSummary "mail".data exBodySummary
    ⟨[exChoiceSummary]⟩ exChoiceSummary [] (by decide) rfl (by decide) rfl

/-! ## Claim C8 -/

/-- C8: when the classify content decodes to a labels object whose label
list is empty, `ClassifyEmail` still returns it as a success (the warning
is only logged). -/
theorem classify_empty_labels_success (model : GoStr) (oracle : Nat → HttpOutcome)
    (content body : GoStr) (cr : ChatResponse) (c0 : ChatChoice)
    (rest : List ChatChoice)
    (hrun : (makeRequest oracle 3).result = .ok 200 body)
    (hcr : decodeChatResponse body = some cr)
    (hch : cr.choices = c0 :: rest)
    (hdec : unmarshalClassify (extractClassifyJson c0.message.content) = some ⟨[]⟩) :
    dsClassifyEmail model oracle content = .ok ⟨[]⟩ := by
  simp [dsClassifyEmail, hrun, hcr, hch, dsClassifyFromContent, hdec]

def exBodyEmptyLabels : GoStr :=
  "\x7b\"choices\":[\x7b\"message\":\x7b\"content\":\"\x7b\\\"labels\\\":[]\x7d\"\x7d\x7d]\x7d".data

def exOracleEmptyLabels : Nat → HttpOutcome := fun _ => .response 200 exBodyEmptyLabels

def exChoiceEmptyLabels : ChatChoice := ⟨0, [], ⟨[], "\x7b\"labels\":[]\x7d".data⟩⟩

/-- Witness for C8 at a concrete `{"labels":[]}` model reply. -/
theorem classify_empty_labels_success_witness :
    dsClassifyEmail exModel exOracleEmptyLabels "mail".data = .ok ⟨[]⟩ :=
  classify_empty_labels_success exModel exOracleEmptyLabels "mail".data
    exBodyEmptyLabels ⟨[exChoiceEmptyLabels]⟩ exChoiceEmptyLabels [] rfl
    (by decide) rfl (by decide)

/-! ## Claim C3 -/

/-- C3: on a 200 classify response whose model content is the labels JSON
object wrapped in a markdown code fence — ```` ```json ```` or a bare
```` ``` ```` fence — the fence is stripped before the strict JSON decode,
and the call decodes to exactly what the unfenced JSON would decode to. -/
theorem classify_fence_strip_equiv (model : GoStr) (oracle : Nat → HttpOutcome)
    (content j body r : GoStr) (cr : ChatResponse) (c0 : ChatChoice)
    (rest : List ChatChoice)
    (hrun : (makeRequest oracle 3).result = .ok 200 body)
    (hcr : decodeChatResponse body = some cr)
    (hch : cr.choices = c0 :: rest)
    (hobj : goTrimSpace j = '\x7b' :: r)
    (hwrap : c0.message.content = "```json".data ++ j ++ "```".data ∨
             c0.message.content = "```".data ++ j ++ "```".data) :
    dsClassifyEmail model oracle content = dsClassifyFromContent j := by
  have hE : extractClassifyJson c0.message.content = goTrimSpace j := by
    rcases hwrap with h | h
    · rw [h]; exact extractClassifyJson_json_fence j
    · rw [h]
      exact extractClassifyJson_bare_fence j (json_tag_not_prefixOf j _ r hobj)
  have hL : dsClassifyEmail model oracle content =
      dsClassifyFromContent c0.message.content := by
    simp [dsClassifyEmail, hrun, hcr, hch]
  have hU : dsClassifyFromContent c0.message.content = dsClassifyFromContent j := by
    unfold dsClassifyFromContent
    rw [hE, extractClassifyJson_of_obj j r hobj]
  rw [hL, hU]

def exJ : GoStr := "\n\x7b\"labels\":[\x7b\"label\":\"x\",\"score\":0.9\x7d]\x7d\n".data

def exJr : GoStr := "\"labels\":[\x7b\"label\":\"x\",\"score\":0.9\x7d]\x7d".data

def exFencedContent : GoStr :=
  "```json\n\x7b\"labels\":[\x7b\"label\":\"x\",\"score\":0.9\x7d]\x7d\n```".data

def exBodyFenced : GoStr :=
  "\x7b\"choices\":[\x7b\"message\":\x7b\"role\":\"assistant\",\"content\":\"```json\\n\x7b\\\"labels\\\":[\x7b\\\"label\\\":\\\"x\\\",\\\"score\\\":0.9\x7d]\x7d\\n```\"\x7d\x7d]\x7d".data

def exOracleFenced : Nat → HttpOutcome := fun _ => .response 200 exBodyFenced

def exChoiceFenced : ChatChoice := ⟨0, [], ⟨"assistant".data, exFencedContent⟩⟩

/-- Witness for C3: a concrete fenced reply classifies exactly as its
unfenced JSON, namely to the single label `x` with score `0.9`. -/
theorem classify_fence_strip_equiv_witness :
    dsClassifyEmail exModel exOracleFenced "mail".data = dsClassifyFromContent exJ ∧
    dsClassifyFromContent exJ = .ok ⟨[⟨"x".data, Rat.divInt 9 10⟩]⟩ :=
  ⟨classify_fence_strip_equiv exModel exOracleFenced "mail".data exJ exBodyFenced
      exJr ⟨[exChoiceFenced]⟩ exChoiceFenced [] rfl (by decide) rfl (by decide)
      (Or.inl (by decide)),
    by decide⟩

/-! ## Claim C4 (corrected) -/

/-- C4 counterexample: the two clients' response handling is *not*
identical beyond the retry count.  At the same single-attempt inputs
(no retry involved): a 400 response with an `APIError`-decodable body is
returned by the Deepseek client as the typed `APIError` but by the OpenAI
client as the generic status error, and a 200 classify response with a
fence-wrapped JSON content succeeds on the Deepseek path but fails to
decode on the OpenAI path. -/
theorem clients_differ_beyond_retries :
    dsSummarizeEmail exModel exOracleApi400 "mail".data ≠
      oaSummarizeEmail exModel exOracleApi400 "mail".data ∧
    dsClassifyEmail exModel exOracleFenced "mail".data ≠
      oaClassifyEmail exModel exOracleFenced "mail".data := by
  constructor <;> decide

/-- C4 amended: the two clients build identical chat requests for all
three tasks, the Deepseek path performs at most 4 attempts while the
OpenAI path performs exactly one, and on a 200 first response the
summarize and draft handling of the two clients coincides.  (Beyond the
retry discrepancy they also differ in non-200 error decoding and in
classify-content normalization, as the counterexample shows.) -/
theorem clients_shared_logic (model content : GoStr) (oracle : Nat → HttpOutcome)
    (b : GoStr) :
    dsSummarizeRequest model content = oaSummarizeRequest model content ∧
    dsClassifyRequest model content = oaClassifyRequest model content ∧
    dsDraftRequest model content = oaDraftRequest model content ∧
    (makeRequest oracle 3).attempts ≤ 4 ∧
    (oaMakeRequest oracle).attempts = 1 ∧
    (oracle 0 = .response 200 b →
      dsSummarizeEmail model oracle content = oaSummarizeEmail model oracle content ∧
      dsDraftReply model oracle content = oaDraftReply model oracle content) := by
  refine ⟨rfl, rfl, rfl, mrLoop_attempts_le oracle 3 4 0, ?_, ?_⟩
  · unfold oaMakeRequest
    cases oracle 0 <;> rfl
  · intro h0
    have hds : makeRequest oracle 3 = ⟨.ok 200 b, 1, []⟩ :=
      makeRequest_return_first oracle 3 200 b h0 (by omega)
    have hoa : oaMakeRequest oracle = ⟨.ok 200 b, 1, []⟩ := by
      simp [oaMakeRequest, h0]
    constructor <;>
      simp [dsSummarizeEmail, oaSummarizeEmail, dsDraftReply, oaDraftReply, hds, hoa]

/-- Witness for the amended C4 at a concrete 200 first response. -/
theorem clients_shared_logic_witness :
    dsSummarizeEmail exModel exOracleSummary "mail".data =
      oaSummarizeEmail exModel exOracleSummary "mail".data ∧
    dsSummarizeRequest exModel "mail".data = oaSummarizeRequest exModel "mail".data :=
  ⟨((clients_shared_logic exModel "mail".data exOracleSummary exBodySummary).2.2.2.2.2
      rfl).1,
    (clients_shared_logic exModel "mail".data exOracleSummary exBodySummary).1⟩
